import Mathlib

/-!
Verification of the view/result-cache state machine of the launcher's search
slice (`src/renderer/store/search/slice.ts`), shallowly embedded in Lean.

Modelling conventions for the JavaScript runtime:

* A JS object with integer-like keys (`Record<number, T>`) enumerates its
  keys in ascending numeric order; we represent it canonically as an
  association list sorted by strictly increasing key (`setk` is the ordered
  insert-or-replace that JS property assignment induces on this canonical
  form, `lookupk` is property read, returning `none` for `undefined`).
  Offsets of the sparse record store are modelled as `Int` so that the
  decrements performed by `movePlaylistGame` never clamp at zero.
* A JS object with arbitrary string keys (the view registry) enumerates its
  keys in insertion order; we represent it as an association list in
  insertion order: `setIns` is property assignment (update in place if the
  key is present, append otherwise), `delIns` is the `delete` operator, and
  `modAssoc` is an in-place mutation of the value stored under one key.
* `Option` models `T | undefined`; optional payload fields absent from a
  response are `none`.  Empty JS arrays are truthy, so `if (data.keyset)`
  is a match on the `Option`, not a test for emptiness.
-/

namespace Launcher

/-- Property read on a JS object represented as an association list
(first binding wins, like a JS object which cannot repeat a key). -/
def lookupk {κ α : Type} [DecidableEq κ] : List (κ × α) → κ → Option α
  | [], _ => none
  | (k', v) :: t, k => if k = k' then some v else lookupk t k

/-- Property assignment on a canonical (ascending-key) integer-keyed JS
object: ordered insert, replacing the binding if the key is present. -/
def setk {κ α : Type} [LinearOrder κ] : List (κ × α) → κ → α → List (κ × α)
  | [], k, v => [(k, v)]
  | (k', v') :: t, k, v =>
    if k < k' then (k, v) :: (k', v') :: t
    else if k = k' then (k, v) :: t
    else (k', v') :: setk t k v

/-- The canonical-form invariant of an integer-keyed JS object:
keys strictly ascending (hence unique). -/
def Sortedk {κ α : Type} [LinearOrder κ] (l : List (κ × α)) : Prop :=
  l.Pairwise (fun a b => a.1 < b.1)

instance sortedkDecidable {κ α : Type} [LinearOrder κ] (l : List (κ × α)) :
    Decidable (Sortedk l) := by
  unfold Sortedk
  infer_instance

/-- `Object.assign(m, l)` / `Object.fromEntries` worker: assign every
binding of `l` into `m`, in order, later bindings overwriting earlier. -/
def assignk {κ α : Type} [LinearOrder κ] (m : List (κ × α)) (l : List (κ × α)) :
    List (κ × α) :=
  l.foldl (fun acc kv => setk acc kv.1 kv.2) m

/-- Property assignment on a string-keyed JS object (insertion order):
replace the binding in place if the key is present, else append. -/
def setIns {κ α : Type} [DecidableEq κ] : List (κ × α) → κ → α → List (κ × α)
  | [], k, v => [(k, v)]
  | (k', v') :: t, k, v =>
    if k = k' then (k, v) :: t else (k', v') :: setIns t k v

/-- The JS `delete` operator on a string-keyed object. -/
def delIns {κ α : Type} [DecidableEq κ] : List (κ × α) → κ → List (κ × α)
  | [], _ => []
  | (k', v') :: t, k => if k = k' then t else (k', v') :: delIns t k

/-- In-place mutation of the value stored under key `k`
(`const x = obj[k]; if (x) mutate(x)`): a no-op when the key is absent. -/
def modAssoc {κ α : Type} [DecidableEq κ] (l : List (κ × α)) (k : κ) (f : α → α) :
    List (κ × α) :=
  l.map (fun kv => if kv.1 = k then (kv.1, f kv.2) else kv)

section MapLemmas

variable {κ α : Type}

theorem lookupk_setk [LinearOrder κ] (m : List (κ × α)) (k k' : κ) (v : α) :
    lookupk (setk m k v) k' = if k' = k then some v else lookupk m k' := by
  induction m with
  | nil => simp [setk, lookupk]
  | cons hd t ih =>
    obtain ⟨k₀, v₀⟩ := hd
    by_cases h1 : k < k₀
    · simp [setk, if_pos h1, lookupk]
    · by_cases h2 : k = k₀
      · subst h2
        simp only [setk, if_neg h1, if_pos rfl, lookupk]
        by_cases h3 : k' = k
        · simp [h3]
        · simp [h3]
      · simp only [setk, if_neg h1, if_neg h2, lookupk]
        by_cases h3 : k' = k₀
        · subst h3
          simp [Ne.symm h2]
        · simp [h3, ih]

theorem mem_setk [LinearOrder κ] {m : List (κ × α)} {k : κ} {v : α} {a : κ × α}
    (h : a ∈ setk m k v) : a = (k, v) ∨ a ∈ m := by
  induction m with
  | nil => simpa [setk] using h
  | cons hd t ih =>
    obtain ⟨k₀, v₀⟩ := hd
    simp only [setk] at h
    split at h
    · rcases List.mem_cons.mp h with h' | h'
      · exact Or.inl (by simp [h'])
      · exact Or.inr h'
    · split at h
      · rcases List.mem_cons.mp h with h' | h'
        · exact Or.inl (by simp [h'])
        · exact Or.inr (List.mem_cons_of_mem _ h')
      · rcases List.mem_cons.mp h with h' | h'
        · exact Or.inr (List.mem_cons.mpr (Or.inl h'))
        · rcases ih h' with h'' | h''
          · exact Or.inl h''
          · exact Or.inr (List.mem_cons_of_mem _ h'')

theorem sortedk_setk [LinearOrder κ] {m : List (κ × α)} (hs : Sortedk m)
    (k : κ) (v : α) : Sortedk (setk m k v) := by
  induction m with
  | nil => simp [setk, Sortedk]
  | cons hd t ih =>
    obtain ⟨k₀, v₀⟩ := hd
    rw [Sortedk, List.pairwise_cons] at hs
    obtain ⟨hlt, ht⟩ := hs
    by_cases h1 : k < k₀
    · rw [Sortedk]
      simp only [setk, if_pos h1]
      refine List.Pairwise.cons ?_ (List.Pairwise.cons hlt ht)
      intro b hb
      rcases List.mem_cons.mp hb with hb | hb
      · simp [hb, h1]
      · exact lt_trans h1 (hlt b hb)
    · by_cases h2 : k = k₀
      · subst h2
        rw [Sortedk]
        simp only [setk, if_neg h1, if_pos rfl]
        exact List.Pairwise.cons hlt ht
      · rw [Sortedk]
        simp only [setk, if_neg h1, if_neg h2]
        have hk0 : k₀ < k := by
          rcases lt_trichotomy k k₀ with h | h | h
          · exact absurd h h1
          · exact absurd h h2
          · exact h
        refine List.Pairwise.cons ?_ (ih ht)
        intro b hb
        rcases mem_setk hb with hb | hb
        · simp [hb, hk0]
        · exact hlt b hb
theorem lookupk_eq_none_of_forall_ne [DecidableEq κ] {l : List (κ × α)} {c : κ}
    (h : ∀ a ∈ l, c ≠ a.1) : lookupk l c = none := by
  induction l with
  | nil => rfl
  | cons hd t ih =>
    obtain ⟨k₀, v₀⟩ := hd
    simp only [lookupk, if_neg (h (k₀, v₀) (List.mem_cons_self _ _))]
    exact ih (fun a ha => h a (List.mem_cons_of_mem _ ha))

theorem lookupk_eq_none_of_forall_lt [LinearOrder κ] {l : List (κ × α)} {c : κ}
    (h : ∀ a ∈ l, c < a.1) : lookupk l c = none := by
  induction l with
  | nil => rfl
  | cons hd t ih =>
    have hc : c ≠ hd.1 := ne_of_lt (h hd (List.mem_cons_self _ _))
    obtain ⟨k₀, v₀⟩ := hd
    simp only [lookupk, if_neg hc]
    exact ih (fun a ha => h a (List.mem_cons_of_mem _ ha))

/-- Two canonical integer-keyed objects with the same properties are equal. -/
theorem sortedk_ext [LinearOrder κ] {l₁ l₂ : List (κ × α)}
    (h₁ : Sortedk l₁) (h₂ : Sortedk l₂)
    (h : ∀ k, lookupk l₁ k = lookupk l₂ k) : l₁ = l₂ := by
  induction l₁ generalizing l₂ with
  | nil =>
    cases l₂ with
    | nil => rfl
    | cons hd t =>
      have := h hd.1
      obtain ⟨k₀, v₀⟩ := hd
      simp [lookupk] at this
  | cons hd t ih =>
    obtain ⟨k₁, v₁⟩ := hd
    rw [Sortedk, List.pairwise_cons] at h₁
    obtain ⟨hlt₁, ht₁⟩ := h₁
    cases l₂ with
    | nil =>
      have := h k₁
      simp [lookupk] at this
    | cons hd₂ t₂ =>
      obtain ⟨k₂, v₂⟩ := hd₂
      rw [Sortedk, List.pairwise_cons] at h₂
      obtain ⟨hlt₂, ht₂⟩ := h₂
      have hkeys : k₁ = k₂ := by
        rcases lt_trichotomy k₁ k₂ with hlt | heq | hgt
        · exfalso
          have h1 := h k₁
          have hnone : lookupk t₂ k₁ = none :=
            lookupk_eq_none_of_forall_lt (fun a ha => lt_trans hlt (hlt₂ a ha))
          simp [lookupk, ne_of_lt hlt, hnone] at h1
        · exact heq
        · exfalso
          have h1 := h k₂
          have hnone : lookupk t k₂ = none :=
            lookupk_eq_none_of_forall_lt (fun a ha => lt_trans hgt (hlt₁ a ha))
          simp [lookupk, ne_of_lt hgt, Ne.symm (ne_of_lt hgt), hnone] at h1
      subst hkeys
      have hv : v₁ = v₂ := by
        have h1 := h k₁
        simpa [lookupk] using h1
      subst hv
      have htail : ∀ k, lookupk t k = lookupk t₂ k := by
        intro k
        by_cases hk : k = k₁
        · subst hk
          rw [lookupk_eq_none_of_forall_lt (fun a ha => hlt₁ a ha),
            lookupk_eq_none_of_forall_lt (fun a ha => hlt₂ a ha)]
        · have h1 := h k
          simpa [lookupk, hk] using h1
      rw [ih ht₁ ht₂ htail]

theorem sortedk_assignk [LinearOrder κ] {m : List (κ × α)} (hs : Sortedk m)
    (l : List (κ × α)) : Sortedk (assignk m l) := by
  induction l generalizing m with
  | nil => exact hs
  | cons hd t ih => exact ih (sortedk_setk hs hd.1 hd.2)

/-- Reading a property after `Object.assign(m, l)` (for `l` with distinct
keys, as any JS object): bindings of `l` win, otherwise fall back to `m`. -/
theorem lookupk_assignk [LinearOrder κ] {l : List (κ × α)}
    (hl : l.Pairwise (fun a b => a.1 ≠ b.1)) (m : List (κ × α)) (k : κ) :
    lookupk (assignk m l) k =
      match lookupk l k with
      | some v => some v
      | none => lookupk m k := by
  induction l generalizing m with
  | nil => simp [assignk, lookupk]
  | cons hd t ih =>
    obtain ⟨k₀, v₀⟩ := hd
    rw [List.pairwise_cons] at hl
    obtain ⟨hne, ht⟩ := hl
    have step : assignk m ((k₀, v₀) :: t) = assignk (setk m k₀ v₀) t := rfl
    rw [step, ih ht]
    by_cases hk : k = k₀
    · subst hk
      have hnone : lookupk t k = none :=
        lookupk_eq_none_of_forall_ne (fun a ha => hne a ha)
      simp [hnone, lookupk, lookupk_setk]
    · simp only [lookupk, if_neg hk]
      cases hfind : lookupk t k with
      | some v => rfl
      | none => simp [lookupk_setk, hk]

theorem sortedk_nil [LinearOrder κ] : Sortedk ([] : List (κ × α)) :=
  List.Pairwise.nil

/-- `setk` is the identity when the binding is already present
(canonical form). -/
theorem setk_eq_self [LinearOrder κ] {l : List (κ × α)} (hs : Sortedk l)
    {k : κ} {v : α} (h : lookupk l k = some v) : setk l k v = l := by
  induction l with
  | nil => simp [lookupk] at h
  | cons hd t ih =>
    obtain ⟨k₀, v₀⟩ := hd
    rw [Sortedk, List.pairwise_cons] at hs
    obtain ⟨hlt, ht⟩ := hs
    by_cases hk : k = k₀
    · subst hk
      have h' : v₀ = v := by simpa [lookupk] using h
      subst h'
      simp [setk]
    · simp only [lookupk, if_neg hk] at h
      have hk0 : k₀ < k := by
        rcases lt_trichotomy k k₀ with hlt' | heq | hgt
        · exfalso
          have : lookupk t k = none :=
            lookupk_eq_none_of_forall_lt (fun a ha => lt_trans hlt' (hlt a ha))
          rw [this] at h
          exact Option.noConfusion h
        · exact absurd heq hk
        · exact hgt
      simp only [setk, if_neg (not_lt_of_gt hk0), if_neg hk]
      rw [ih ht h]

theorem lookupk_setIns [DecidableEq κ] (l : List (κ × α)) (k k' : κ) (v : α) :
    lookupk (setIns l k v) k' = if k' = k then some v else lookupk l k' := by
  induction l with
  | nil => simp [setIns, lookupk]
  | cons hd t ih =>
    obtain ⟨k₀, v₀⟩ := hd
    by_cases h1 : k = k₀
    · subst h1
      simp only [setIns, if_pos rfl, lookupk]
      by_cases h2 : k' = k
      · simp [h2]
      · simp [h2]
    · simp only [setIns, if_neg h1, lookupk]
      by_cases h2 : k' = k₀
      · subst h2
        simp [Ne.symm h1]
      · simp [h2, ih]

theorem lookupk_delIns_ne [DecidableEq κ] (l : List (κ × α)) {k k' : κ}
    (h : k' ≠ k) : lookupk (delIns l k) k' = lookupk l k' := by
  induction l with
  | nil => rfl
  | cons hd t ih =>
    obtain ⟨k₀, v₀⟩ := hd
    by_cases h1 : k = k₀
    · subst h1
      simp [delIns, lookupk, h, ih]
    · simp only [delIns, if_neg h1, lookupk]
      by_cases h2 : k' = k₀
      · simp [h2]
      · simp [h2, ih]

theorem lookupk_delIns_self [DecidableEq κ] {l : List (κ × α)}
    (hnd : (l.map Prod.fst).Nodup) (k : κ) : lookupk (delIns l k) k = none := by
  induction l with
  | nil => rfl
  | cons hd t ih =>
    obtain ⟨k₀, v₀⟩ := hd
    simp only [List.map_cons, List.nodup_cons] at hnd
    obtain ⟨hk₀, ht⟩ := hnd
    by_cases h1 : k = k₀
    · subst h1
      simp only [delIns, if_pos rfl]
      exact
        lookupk_eq_none_of_forall_ne (fun a ha hk =>
          hk₀ (hk ▸ List.mem_map_of_mem Prod.fst ha))
    · simp only [delIns, if_neg h1, lookupk, if_neg h1]
      exact ih ht

theorem mem_setIns [DecidableEq κ] {l : List (κ × α)} {k : κ} {v : α}
    {a : κ × α} (h : a ∈ setIns l k v) : a = (k, v) ∨ a ∈ l := by
  induction l with
  | nil => simpa [setIns] using h
  | cons hd t ih =>
    obtain ⟨k₀, v₀⟩ := hd
    simp only [setIns] at h
    split at h
    · rcases List.mem_cons.mp h with h' | h'
      · exact Or.inl h'
      · exact Or.inr (List.mem_cons_of_mem _ h')
    · rcases List.mem_cons.mp h with h' | h'
      · exact Or.inr (List.mem_cons.mpr (Or.inl h'))
      · rcases ih h' with h'' | h''
        · exact Or.inl h''
        · exact Or.inr (List.mem_cons_of_mem _ h'')

theorem nodup_keys_setIns [DecidableEq κ] {l : List (κ × α)}
    (hnd : (l.map Prod.fst).Nodup) (k : κ) (v : α) :
    ((setIns l k v).map Prod.fst).Nodup := by
  induction l with
  | nil => simp [setIns]
  | cons hd t ih =>
    obtain ⟨k₀, v₀⟩ := hd
    simp only [List.map_cons, List.nodup_cons] at hnd
    obtain ⟨hk₀, ht⟩ := hnd
    simp only [setIns]
    split
    · next h1 =>
      subst h1
      simp only [List.map_cons, List.nodup_cons]
      exact ⟨hk₀, ht⟩
    · next h1 =>
      simp only [List.map_cons, List.nodup_cons]
      refine ⟨?_, ih ht⟩
      intro hc
      obtain ⟨a, ha, hka⟩ := List.mem_map.mp hc
      rcases mem_setIns ha with h' | h'
      · exact h1 (by rw [h'] at hka; exact hka)
      · exact hk₀ (List.mem_map.mpr ⟨a, h', hka⟩)

theorem lookupk_modAssoc [DecidableEq κ] (l : List (κ × α)) (k k' : κ)
    (f : α → α) :
    lookupk (modAssoc l k f) k' =
      if k' = k then (lookupk l k').map f else lookupk l k' := by
  induction l with
  | nil => simp [modAssoc, lookupk]
  | cons hd t ih =>
    obtain ⟨k₀, v₀⟩ := hd
    by_cases h1 : k₀ = k
    · subst h1
      have hstep : modAssoc ((k₀, v₀) :: t) k₀ f =
          (k₀, f v₀) :: modAssoc t k₀ f := by
        simp [modAssoc]
      rw [hstep]
      by_cases h2 : k' = k₀
      · subst h2
        simp [lookupk]
      · simp [lookupk, h2, ih]
    · have hstep : modAssoc ((k₀, v₀) :: t) k f =
          (k₀, v₀) :: modAssoc t k f := by
        simp [modAssoc, h1]
      rw [hstep]
      by_cases h2 : k' = k₀
      · subst h2
        have hne : ¬k' = k := fun hc => h1 (hc ▸ rfl)
        simp [lookupk, hne]
      · simp [lookupk, h2, ih]

end MapLemmas

/-! ## Data model (from `src/renderer/store/search/slice.ts`) -/

def GENERAL_VIEW_ID : String := "!general!"

/-- `RequestState` enum of `slice.ts`. -/
inductive RequestState : Type where
  /-- Request is waiting to be made. -/
  | WAITING
  /-- Request has been made. Waiting for the response to be received. -/
  | REQUESTED
  /-- Response has been received. -/
  | RECEIVED
deriving DecidableEq, Repr

/-- An element of `PageKeyset` (type `PageKeyset` comes from
`@shared/back/types`, which is not under `src/`).  Modelled from the spec:
"`keyset`: ordered sequence of opaque cursor values".  A cursor is an opaque
value; as a JS object/non-empty value it is truthy, so the truthiness test
`view.data.keyset[i-1]` succeeds exactly when index `i-1` is in bounds. -/
structure Cursor : Type where
  val : String
deriving DecidableEq, Repr

/-- A result record (`ViewGame`/`Game`).  Only the `id` field is ever
inspected by the slice (in `movePlaylistGame`); the remaining fields are
carried opaquely and are irrelevant to every claim. -/
structure ViewGame : Type where
  id : String
deriving DecidableEq, Repr

/-- A playlist entry (`gameId` plus opaque notes). -/
structure PlaylistGame : Type where
  gameId : String
  notes : String
deriving DecidableEq, Repr

/-- A playlist: identity plus its ordered entry sequence (other fields of
the launcher's `Playlist` are never read by the slice). -/
structure Playlist : Type where
  id : String
  games : List PlaylistGame
deriving DecidableEq, Repr

/-- Modelled from the spec: `AdvancedFilter` and `getDefaultAdvancedFilter`
live in `@shared/search/util`, outside `src/`; the slice stores the filter
opaquely (only `createViews` chooses the optional whitelisted library). -/
structure AdvancedFilter : Type where
  library : Option String
deriving DecidableEq, Repr

def getDefaultAdvancedFilter (library : Option String) : AdvancedFilter :=
  { library := library }

/-- Modelled from the spec: `SearchQuery` / `getDefaultGameSearch` come from
shared modules outside `src/`; the slice only ever writes `viewId`,
`searchId` and `page` on top of the defaults. -/
structure SearchQuery : Type where
  viewId : String
  searchId : Nat
  page : Nat
deriving DecidableEq, Repr

def getDefaultGameSearch : SearchQuery :=
  { viewId := "", searchId := 0, page := 0 }

/-- `StoredView` (persisted view settings re-applied by
`addViews`/`createViews`). -/
structure StoredView : Type where
  view : String
  text : String
  advancedFilter : AdvancedFilter
  orderBy : String
  orderReverse : String
  expanded : Bool
deriving DecidableEq, Repr

/-- `ResultsViewData`: the per-view results cache.
`games` is the sparse offset → record store (canonical integer-keyed JS
object, offsets as `Int`), `pages` the page → `RequestState` table. -/
@[ext]
structure ResultsViewData : Type where
  searchId : Nat
  games : List (Int × ViewGame)
  total : Option Nat
  pages : List (Nat × RequestState)
  keyset : List Cursor
  metaState : RequestState
deriving DecidableEq, Repr

/-- `SearchAddDataActionData`: an `addData` (applyResponse) payload; all
fields but `searchId` are optional. -/
structure SearchAddDataActionData : Type where
  searchId : Nat
  page : Option Nat
  games : Option (List ViewGame)
  total : Option Nat
  pages : Option (List (Nat × RequestState))
  keyset : Option (List Cursor)
deriving DecidableEq, Repr

/-- `ResultsView`: one named view of the registry. -/
@[ext]
structure ResultsView : Type where
  id : String
  library : Option String
  selectedGame : Option ViewGame
  selectedPlaylist : Option Playlist
  data : ResultsViewData
  orderBy : String
  orderReverse : String
  text : String
  textPositions : List Nat
  advancedFilter : AdvancedFilter
  searchFilter : SearchQuery
  loaded : Bool
  expanded : Bool
  gridScrollCol : Option Nat
  gridScrollRow : Option Nat
  gridScrollTop : Option Nat
  listScrollRow : Option Nat
deriving DecidableEq, Repr

/-- `SearchState.views`: the registry, a string-keyed JS object in insertion
order.  (The sibling `dropdowns` sub-state is omitted: none of the modelled
operations reads or writes it.) -/
structure SearchState : Type where
  views : List (String × ResultsView)
deriving DecidableEq, Repr

/-- `VIEW_PAGE_SIZE` comes from `@shared/constants`, outside `src/`.
Modelled from the spec (§3: offsets are `pageSize * pageNumber + index`);
no claim depends on the concrete value. -/
def VIEW_PAGE_SIZE : Nat := 100

/-- The fresh view literal repeated at
`slice.ts` lines 283-305 / 337-359 / 393-415 (and, with
`getDefaultAdvancedFilter()`, the shape of `defaultGeneralState`). -/
def freshView (view : String) (af : AdvancedFilter) : ResultsView :=
  { id := view
    library := none
    selectedGame := none
    selectedPlaylist := none
    data :=
      { searchId := 0
        keyset := []
        games := []
        total := none
        pages := []
        metaState := RequestState.WAITING }
    loaded := false
    expanded := true
    orderBy := "title"
    orderReverse := "ASC"
    searchFilter := { getDefaultGameSearch with viewId := view, searchId := 0, page := 0 }
    text := ""
    textPositions := []
    advancedFilter := af
    gridScrollCol := none
    gridScrollRow := none
    gridScrollTop := none
    listScrollRow := none }

/-- `defaultGeneralState` (lines 179-201). -/
def defaultGeneralState : ResultsView :=
  freshView GENERAL_VIEW_ID (getDefaultAdvancedFilter none)

/-- `initialState` (lines 203-216), restricted to `views`. -/
def initialState : SearchState :=
  { views := [(GENERAL_VIEW_ID, defaultGeneralState)] }

/-- The reset cache installed whenever a higher `searchId` supersedes the
current one (`addData` lines 638-647, `setSearchId` lines 469-479). -/
def resetData (searchId : Nat) : ResultsViewData :=
  { searchId := searchId
    pages := []
    keyset := []
    games := []
    total := none
    metaState := RequestState.REQUESTED }

/-! ## `addData` (applyResponse), lines 628-691 -/

/-- Step 3 of the merge (lines 650-655): `if (data.total !== undefined)`
set `total` and clear the scroll hints tied to the previous result count. -/
def applyTotal (v : ResultsView) (data : SearchAddDataActionData) : ResultsView :=
  match data.total with
  | some t =>
    { v with
      data := { v.data with total := some t }
      gridScrollCol := none
      gridScrollRow := none
      listScrollRow := none }
  | none => v

/-- The page table rebuilt from a keyset of length `len - 1`
(lines 660-667): every page `0 ≤ i < len` defaults to `WAITING`, then page 0
is overwritten to `RECEIVED`. -/
def buildPages (len : Nat) : List (Nat × RequestState) :=
  setk ((List.range len).foldl (fun m i => setk m i RequestState.WAITING) [])
    0 RequestState.RECEIVED

/-- Step 4 of the merge (lines 657-670): `if (data.keyset)` replace the
keyset wholesale and rebuild the page table
(`Object.keys(data.keyset).length + 1` pages). -/
def applyKeyset (v : ResultsView) (data : SearchAddDataActionData) : ResultsView :=
  match data.keyset with
  | some ks =>
    { v with data := { v.data with keyset := ks, pages := buildPages (ks.length + 1) } }
  | none => v

/-- Step 5 of the merge (lines 672-675): `if (data.pages)`
`Object.assign(view.data.pages, data.pages)`. -/
def applyPages (v : ResultsView) (data : SearchAddDataActionData) : ResultsView :=
  match data.pages with
  | some ps => { v with data := { v.data with pages := assignk v.data.pages ps } }
  | none => v

/-- The record-writing loop of lines 683-685:
`view.data.games[startIdx + i] = data.games[i]`. -/
def writeGames : List (Int × ViewGame) → Int → List ViewGame → List (Int × ViewGame)
  | m, _, [] => m
  | m, idx, g :: t => writeGames (setk m idx g) (idx + 1) t

/-- Step 6 of the merge (lines 677-689): `if (data.page !== undefined &&
data.games)`.  An empty page 0 means an empty result set (`total = 0`);
otherwise the records are written at `VIEW_PAGE_SIZE * page + i` and the
page is marked `RECEIVED`.  Either way `metaState` becomes `RECEIVED`. -/
def applyPageGames (v : ResultsView) (data : SearchAddDataActionData) : ResultsView :=
  match data.page, data.games with
  | some page, some gs =>
    if page = 0 ∧ gs = [] then
      { v with data := { v.data with total := some 0, metaState := RequestState.RECEIVED } }
    else
      { v with
        data :=
          { v.data with
            games := writeGames v.data.games ((VIEW_PAGE_SIZE : Int) * page) gs
            pages := setk v.data.pages page RequestState.RECEIVED
            metaState := RequestState.RECEIVED } }
  | _, _ => v

/-- Lines 649-689: the merge applied once the `searchId` comparison has been
settled (steps 3-6 in source order). -/
def mergeData (v : ResultsView) (data : SearchAddDataActionData) : ResultsView :=
  applyPageGames (applyPages (applyKeyset (applyTotal v data) data) data) data

/-- `addData` on one view (lines 631-690): drop a stale response, reset on a
superseding one, then merge. -/
def addDataView (v : ResultsView) (data : SearchAddDataActionData) : ResultsView :=
  if v.data.searchId > data.searchId then v
  else if v.data.searchId < data.searchId then
    mergeData { v with data := resetData data.searchId } data
  else mergeData v data

/-! ## `setSearchId` (lines 466-480) and `requestRange` (lines 499-521) -/

def setSearchIdView (v : ResultsView) (searchId : Nat) : ResultsView :=
  if v.data.searchId < searchId then { v with data := resetData searchId }
  else v

/-- The body of `requestRange`'s page loop: for `start ≤ i < start + count`,
a page `i > 0` that is `WAITING` and whose cursor `keyset[i-1]` exists is
flipped to `REQUESTED` (the network send itself leaves the state
untouched). -/
def requestLoop (ks : List Cursor) :
    List (Nat × RequestState) → Nat → Nat → List (Nat × RequestState)
  | pages, _, 0 => pages
  | pages, i, count + 1 =>
    requestLoop ks
      (if 0 < i ∧ lookupk pages i = some RequestState.WAITING ∧ i - 1 < ks.length
        then setk pages i RequestState.REQUESTED else pages)
      (i + 1) count

def requestRangeView (v : ResultsView) (searchId start count : Nat) : ResultsView :=
  if v.data.searchId = searchId then
    { v with data := { v.data with pages := requestLoop v.data.keyset v.data.pages start count } }
  else v

/-! ## `movePlaylistGame` (lines 522-573) -/

/-- JS `Array.prototype.findIndex`, with `none` standing for `-1`. -/
def jsFindIndex {α : Type} (p : α → Bool) : List α → Option Nat
  | [] => none
  | x :: t => if p x then some 0 else (jsFindIndex p t).map (· + 1)

/-- JS `arr.splice(i, 1)` (removal part): delete the element at index `i`. -/
def jsSpliceRemove {α : Type} (l : List α) (i : Nat) : List α :=
  l.take i ++ l.drop (i + 1)

/-- JS `arr.splice(i, 0, x)` for `i ≥ 0`: insert `x` at index `i`
(clamped to the end when `i` exceeds the length, as in JS). -/
def jsSpliceInsert {α : Type} (l : List α) (i : Nat) (x : α) : List α :=
  l.take i ++ x :: l.drop i

/-- The key of the entries-array element at position `i`
(`games[i][0]`). -/
def keyAtPos (l : List (Int × ViewGame)) (i : Nat) : Int :=
  (l.getD i ((0 : Int), { id := "" })).1

/-- `games[i][0] = k`: overwrite the key of the element at position `i`. -/
def setKeyAt (l : List (Int × ViewGame)) (i : Nat) (k : Int) :
    List (Int × ViewGame) :=
  (List.enum l).map (fun p => if p.1 = i then (k, p.2.2) else p.2)

/-- The shifting loops of lines 556-558 / 562-564: add `d` to the key of
every element at position `lo ≤ i < hi`. -/
def shiftKeysRange (l : List (Int × ViewGame)) (lo hi : Nat) (d : Int) :
    List (Int × ViewGame) :=
  (List.enum l).map (fun p => if lo ≤ p.1 ∧ p.1 < hi then (p.2.1 + d, p.2.2) else p.2)

/-- `Object.fromEntries(games)` (line 567): rebuild the integer-keyed
object, later duplicate keys overwriting earlier ones. -/
def fromEntries (l : List (Int × ViewGame)) : List (Int × ViewGame) :=
  assignk [] l

/-- `movePlaylistGame` on one view (lines 526-572).
The first half reorders `selectedPlaylist.games`; the second half
(lines 546-567) renumbers the sparse record store.  Note that the source
compares and iterates with `sourceIdx` — the index of the source entry in
the PLAYLIST — on lines 553 and 556 even though the surrounding code works
with positions in the entries array (`sourceIndex`/`destIndex`); the model
reproduces that verbatim.  (`Object.entries` of the canonical integer-keyed
store is the store itself; the trailing `SAVE_PLAYLIST` send does not touch
slice state.) -/
def movePlaylistGameView (v : ResultsView) (sourceGameId destGameId : String) :
    ResultsView :=
  match v.selectedPlaylist with
  | none => v
  | some playlist =>
    match jsFindIndex (fun g => g.gameId == sourceGameId) playlist.games,
        jsFindIndex (fun g => g.gameId == destGameId) playlist.games with
    | some sourceIdx, some destIdx =>
      let sourceGame := playlist.games.getD sourceIdx { gameId := "", notes := "" }
      let removed := jsSpliceRemove playlist.games sourceIdx
      let newGames :=
        if sourceIdx < destIdx then
          -- lines 533-538: re-find dest, insert after it (push at the end
          -- boundary; a JS `-1` re-find index would mean `splice(0, ...)`)
          match jsFindIndex (fun g => g.gameId == destGameId) removed with
          | some d =>
            if d < removed.length then jsSpliceInsert removed (d + 1) sourceGame
            else removed ++ [sourceGame]
          | none => jsSpliceInsert removed 0 sourceGame
        else
          -- lines 540-541: re-find dest, insert BEFORE it
          -- (a JS `-1` re-find index would mean `splice(length - 1, ...)`)
          match jsFindIndex (fun g => g.gameId == destGameId) removed with
          | some d => jsSpliceInsert removed d sourceGame
          | none => jsSpliceInsert removed (removed.length - 1) sourceGame
      let entries := v.data.games
      let newRecords :=
        match jsFindIndex (fun g => g.2.id == sourceGameId) entries,
            jsFindIndex (fun g => g.2.id == destGameId) entries with
        | some sourceIndex, some destIndex =>
          if sourceIdx < destIndex then
            -- lines 554-558: source takes dest's key, then "moving down"
            -- decrements keys at positions sourceIdx+1 .. destIndex
            fromEntries
              (shiftKeysRange (setKeyAt entries sourceIndex (keyAtPos entries destIndex))
                (sourceIdx + 1) (destIndex + 1) (-1))
          else
            -- lines 560-564: "moving up" increments keys at positions
            -- destIndex .. sourceIndex-1
            fromEntries
              (shiftKeysRange (setKeyAt entries sourceIndex (keyAtPos entries destIndex))
                destIndex sourceIndex 1)
        | _, _ => fromEntries entries
      { v with
        selectedPlaylist := some { playlist with games := newGames }
        data := { v.data with games := newRecords } }
    | _, _ => v

/-! ## Registry operations -/

/-- The `storedViews` re-application loop of `addViews` (lines 309-321).
`loadViewsText` is the external preference
`window.Shared.preferences.data.loadViewsText`, passed as a parameter. -/
def applyStoredAdd (views : List (String × ResultsView)) (sv : StoredView)
    (loadViewsText : Bool) : List (String × ResultsView) :=
  modAssoc views sv.view (fun v =>
    { v with
      text := if loadViewsText then sv.text else v.text
      advancedFilter := sv.advancedFilter
      orderBy := sv.orderBy
      orderReverse := sv.orderReverse })

/-- The `storedViews` loop of `createViews` (lines 419-432): same as
`applyStoredAdd` but also restoring `expanded`. -/
def applyStoredCreate (views : List (String × ResultsView)) (sv : StoredView)
    (loadViewsText : Bool) : List (String × ResultsView) :=
  modAssoc views sv.view (fun v =>
    { v with
      text := if loadViewsText then sv.text else v.text
      advancedFilter := sv.advancedFilter
      orderBy := sv.orderBy
      orderReverse := sv.orderReverse
      expanded := sv.expanded })

/-- The view-creation loop shared by `addViews` (lines 279-307) and
`createViews` (lines 391-417): add a fresh view for every name not already
present. -/
def createLoop (views : List (String × ResultsView)) (names : List String)
    (af : String → AdvancedFilter) : List (String × ResultsView) :=
  names.foldl
    (fun acc name =>
      match lookupk acc name with
      | some _ => acc
      | none => setIns acc name (freshView name (af name)))
    views

/-- `addViews` (lines 278-322). -/
def addViews (s : SearchState) (names : List String)
    (storedViews : Option (List StoredView)) (loadViewsText : Bool) : SearchState :=
  let views := createLoop s.views names (fun _ => getDefaultAdvancedFilter none)
  { s with
    views :=
      match storedViews with
      | some svs => svs.foldl (fun acc sv => applyStoredAdd acc sv loadViewsText) views
      | none => views }

/-- `createViews` (lines 385-433): clear every view except the general one,
then create the requested views (whitelisting the library when
`areLibraries`), then re-apply stored settings.  (A JS `undefined`-valued
general key behaves as an absent key for every later read here.) -/
def createViews (s : SearchState) (names : List String)
    (storedViews : Option (List StoredView)) (areLibraries : Bool)
    (loadViewsText : Bool) : SearchState :=
  let base : List (String × ResultsView) :=
    match lookupk s.views GENERAL_VIEW_ID with
    | some gv => [(GENERAL_VIEW_ID, gv)]
    | none => []
  let views := createLoop base names
    (fun name => getDefaultAdvancedFilter (if areLibraries then some name else none))
  { s with
    views :=
      match storedViews with
      | some svs => svs.foldl (fun acc sv => applyStoredCreate acc sv loadViewsText) views
      | none => views }

/-- `deleteView` (lines 323-361): delete the view if present; if a single
view remains, synthesize a fresh "Browse" view.  (The `customViews`
preference mutation of lines 327-333 touches only external preference data,
never the slice state.) -/
def deleteView (s : SearchState) (name : String) : SearchState :=
  let views :=
    match lookupk s.views name with
    | some _ => delIns s.views name
    | none => s.views
  { s with
    views :=
      if views.length = 1 then
        setIns views "Browse" (freshView "Browse" (getDefaultAdvancedFilter none))
      else views }

/-- `renameView` (lines 362-368): assign the view to the new key (with its
`id` updated), then delete the old key. -/
def renameView (s : SearchState) (old new : String) : SearchState :=
  match lookupk s.views old with
  | some v => { s with views := delIns (setIns s.views new { v with id := new }) old }
  | none => s

/-- `duplicateView` (lines 369-384): copy every field but identity, with a
reset, unloaded cache; rejected silently when the source is absent or the
destination exists. -/
def duplicateView (s : SearchState) (oldView view : String) : SearchState :=
  match lookupk s.views oldView, lookupk s.views view with
  | some src, none =>
    { s with
      views :=
        setIns s.views view
          { src with
            id := view
            loaded := false
            data :=
              { searchId := 0
                keyset := []
                games := []
                total := none
                pages := []
                metaState := RequestState.WAITING } } }
  | _, _ => s

/-! ## State-level entry points (`state.views[payload.view]` then mutate) -/

def addData (s : SearchState) (view : String) (data : SearchAddDataActionData) :
    SearchState :=
  { s with views := modAssoc s.views view (fun v => addDataView v data) }

def setSearchId (s : SearchState) (view : String) (searchId : Nat) : SearchState :=
  { s with views := modAssoc s.views view (fun v => setSearchIdView v searchId) }

def requestRange (s : SearchState) (view : String) (searchId start count : Nat) :
    SearchState :=
  { s with views := modAssoc s.views view (fun v => requestRangeView v searchId start count) }

def movePlaylistGame (s : SearchState) (view sourceGameId destGameId : String) :
    SearchState :=
  { s with views := modAssoc s.views view (fun v => movePlaylistGameView v sourceGameId destGameId) }

/-- A step of the sequences quantified over by the `searchId`-monotonicity
property: an `applyResponse` (`addData`) or a `setSearchId` dispatch. -/
inductive SearchOp : Type where
  | respond (view : String) (data : SearchAddDataActionData)
  | newSearchId (view : String) (searchId : Nat)
deriving DecidableEq, Repr

def applySearchOp (s : SearchState) : SearchOp → SearchState
  | SearchOp.respond view data => addData s view data
  | SearchOp.newSearchId view searchId => setSearchId s view searchId

def applySearchOps (s : SearchState) (ops : List SearchOp) : SearchState :=
  ops.foldl applySearchOp s

/-! ## Basic facts about the merge -/

theorem searchId_applyTotal (v : ResultsView) (p : SearchAddDataActionData) :
    (applyTotal v p).data.searchId = v.data.searchId := by
  cases h : p.total <;> simp [applyTotal, h]

theorem searchId_applyKeyset (v : ResultsView) (p : SearchAddDataActionData) :
    (applyKeyset v p).data.searchId = v.data.searchId := by
  cases h : p.keyset <;> simp [applyKeyset, h]

theorem searchId_applyPages (v : ResultsView) (p : SearchAddDataActionData) :
    (applyPages v p).data.searchId = v.data.searchId := by
  cases h : p.pages <;> simp [applyPages, h]

theorem searchId_applyPageGames (v : ResultsView) (p : SearchAddDataActionData) :
    (applyPageGames v p).data.searchId = v.data.searchId := by
  cases h1 : p.page <;> cases h2 : p.games <;> simp only [applyPageGames, h1, h2]
  split <;> rfl

theorem searchId_mergeData (v : ResultsView) (p : SearchAddDataActionData) :
    (mergeData v p).data.searchId = v.data.searchId := by
  rw [mergeData, searchId_applyPageGames, searchId_applyPages, searchId_applyKeyset,
    searchId_applyTotal]

theorem searchId_le_addDataView (v : ResultsView) (p : SearchAddDataActionData) :
    v.data.searchId ≤ (addDataView v p).data.searchId := by
  unfold addDataView
  split
  · exact le_refl _
  · split
    · next h2 =>
      rw [searchId_mergeData]
      exact le_of_lt h2
    · rw [searchId_mergeData]

theorem searchId_le_setSearchIdView (v : ResultsView) (n : Nat) :
    v.data.searchId ≤ (setSearchIdView v n).data.searchId := by
  unfold setSearchIdView
  split
  · next h => exact le_of_lt h
  · exact le_refl _

theorem lookupk_applySearchOp {s : SearchState} {name : String} {v : ResultsView}
    (h : lookupk s.views name = some v) (op : SearchOp) :
    ∃ v', lookupk (applySearchOp s op).views name = some v' ∧
      v.data.searchId ≤ v'.data.searchId := by
  cases op with
  | respond view data =>
    simp only [applySearchOp, addData]
    rw [lookupk_modAssoc]
    by_cases hn : name = view
    · rw [if_pos hn, h]
      exact ⟨addDataView v data, rfl, searchId_le_addDataView v data⟩
    · rw [if_neg hn, h]
      exact ⟨v, rfl, le_refl _⟩
  | newSearchId view n =>
    simp only [applySearchOp, setSearchId]
    rw [lookupk_modAssoc]
    by_cases hn : name = view
    · rw [if_pos hn, h]
      exact ⟨setSearchIdView v n, rfl, searchId_le_setSearchIdView v n⟩
    · rw [if_neg hn, h]
      exact ⟨v, rfl, le_refl _⟩

/-- Claim C1: for every view, the cache's `searchId` is non-decreasing: no
sequence of `applyResponse` (`addData`) or `setSearchId` operations ever
makes a view's `data.searchId` smaller than it was before. -/
theorem searchId_nonDecreasing (ops : List SearchOp) (s : SearchState)
    (name : String) (v : ResultsView) (h : lookupk s.views name = some v) :
    ∃ v', lookupk (applySearchOps s ops).views name = some v' ∧
      v.data.searchId ≤ v'.data.searchId := by
  induction ops generalizing s v with
  | nil => exact ⟨v, h, le_refl _⟩
  | cons op ops ih =>
    obtain ⟨v1, h1, le1⟩ := lookupk_applySearchOp h op
    obtain ⟨v2, h2, le2⟩ := ih (applySearchOp s op) v1 h1
    exact ⟨v2, h2, le_trans le1 le2⟩

def witnessPayload : SearchAddDataActionData :=
  { searchId := 2
    page := some 0
    games := some [{ id := "g1" }]
    total := some 1
    pages := none
    keyset := some [{ val := "c1" }] }

theorem searchId_nonDecreasing_witness :
    ∃ v', lookupk
      (applySearchOps initialState
        [SearchOp.newSearchId GENERAL_VIEW_ID 1,
          SearchOp.respond GENERAL_VIEW_ID witnessPayload]).views
      GENERAL_VIEW_ID = some v' ∧
      defaultGeneralState.data.searchId ≤ v'.data.searchId :=
  searchId_nonDecreasing _ _ _ _ (by decide)

/-- Claim C3: a response whose `searchId` is strictly less than the view's
current `data.searchId` leaves the entire view state unchanged. -/
theorem addData_stale_drop (v : ResultsView) (p : SearchAddDataActionData)
    (h : p.searchId < v.data.searchId) : addDataView v p = v := by
  unfold addDataView
  rw [if_pos h]

def staleView : ResultsView :=
  { freshView "Browse" (getDefaultAdvancedFilter none) with
    data :=
      { searchId := 1
        games := [((0 : Int), { id := "gA" })]
        total := some 1
        pages := [(0, RequestState.RECEIVED)]
        keyset := []
        metaState := RequestState.RECEIVED } }

def stalePayload : SearchAddDataActionData :=
  { searchId := 0
    page := some 1
    games := some [{ id := "gX" }]
    total := none
    pages := none
    keyset := none }

theorem addData_stale_drop_witness : addDataView staleView stalePayload = staleView :=
  addData_stale_drop staleView stalePayload (by decide)

/-- Claim C2: a response whose `searchId` strictly exceeds the view's
current one behaves exactly as if the cache had first been reset to
`{searchId, records: {}, pageStates: {}, keyset: [], total: undefined}`
(plus `metaState: REQUESTED`) and the response were then merged into that
empty cache — so records and page states carry no residue of the old
generation. -/
theorem addData_reset_on_supersede (v : ResultsView) (p : SearchAddDataActionData)
    (h : v.data.searchId < p.searchId) :
    addDataView v p =
      addDataView
        { v with
          data :=
            { searchId := p.searchId
              games := []
              pages := []
              keyset := []
              total := none
              metaState := RequestState.REQUESTED } } p := by
  have hrhs :
      ({ v with
          data :=
            { searchId := p.searchId
              games := []
              pages := []
              keyset := []
              total := none
              metaState := RequestState.REQUESTED } } : ResultsView).data.searchId
        = p.searchId := rfl
  unfold addDataView
  rw [hrhs]
  simp only [gt_iff_lt]
  rw [if_neg (lt_asymm h), if_pos h, if_neg (lt_irrefl p.searchId),
    if_neg (lt_irrefl p.searchId)]
  rfl

theorem addData_reset_on_supersede_witness :
    addDataView staleView witnessPayload =
      addDataView
        { staleView with
          data :=
            { searchId := witnessPayload.searchId
              games := []
              pages := []
              keyset := []
              total := none
              metaState := RequestState.REQUESTED } } witnessPayload :=
  addData_reset_on_supersede staleView witnessPayload (by decide)

/-! ## The rebuilt page table (claim C5) -/

theorem lookupk_rangeFoldWaiting (n k : Nat) :
    lookupk ((List.range n).foldl (fun m i => setk m i RequestState.WAITING) []) k
      = if k < n then some RequestState.WAITING else none := by
  induction n with
  | zero => simp [lookupk]
  | succ n ih =>
    rw [List.range_succ, List.foldl_append]
    simp only [List.foldl_cons, List.foldl_nil]
    rw [lookupk_setk, ih]
    by_cases h1 : k = n
    · simp [h1]
    · by_cases h2 : k < n
      · simp [h1, h2, Nat.lt_succ_of_lt h2]
      · have : ¬k < n + 1 := by omega
        simp [h1, h2, this]

theorem sortedk_rangeFoldWaiting (n : Nat) :
    Sortedk ((List.range n).foldl (fun m i => setk m i RequestState.WAITING) []) := by
  induction n with
  | zero => exact sortedk_nil
  | succ n ih =>
    rw [List.range_succ, List.foldl_append]
    exact sortedk_setk ih n RequestState.WAITING

theorem lookupk_buildPages (n k : Nat) :
    lookupk (buildPages n) k =
      if k = 0 then some RequestState.RECEIVED
      else if k < n then some RequestState.WAITING
      else none := by
  rw [buildPages, lookupk_setk, lookupk_rangeFoldWaiting]

theorem sortedk_buildPages (n : Nat) : Sortedk (buildPages n) :=
  sortedk_setk (sortedk_rangeFoldWaiting n) 0 RequestState.RECEIVED

theorem addDataView_eq_merge_of_eq {v : ResultsView} {p : SearchAddDataActionData}
    (h : v.data.searchId = p.searchId) : addDataView v p = mergeData v p := by
  unfold addDataView
  rw [h]
  rw [if_neg (lt_irrefl p.searchId), if_neg (lt_irrefl p.searchId)]

/-- Claim C5 (amended): merging a matching-generation response that carries
a keyset of length `k` and no partial page-state or record sections (the
shape the keyset response dispatched by `requestKeyset` always has)
replaces the cache's keyset wholesale and rebuilds the page table to
exactly pages `0..k`, page `0` being `RECEIVED` and every other page
`WAITING`.  (As the counterexample shows, a hybrid payload that also
carries a `pages` or `page`+records section has those merged on top of the
rebuilt table afterwards, so the claim is false for it.) -/
theorem addData_keyset_rebuild (v : ResultsView) (p : SearchAddDataActionData)
    (ks : List Cursor) (hsid : p.searchId = v.data.searchId)
    (hks : p.keyset = some ks) (hpp : p.pages = none) (hpg : p.page = none) :
    (addDataView v p).data.keyset = ks ∧
    ∀ i : Nat,
      lookupk (addDataView v p).data.pages i =
        if i = 0 then some RequestState.RECEIVED
        else if i ≤ ks.length then some RequestState.WAITING
        else none := by
  rw [addDataView_eq_merge_of_eq hsid.symm]
  unfold mergeData
  cases hg : p.games <;> cases ht : p.total <;>
    simp only [applyTotal, applyKeyset, applyPages, applyPageGames, hks, hpp, hpg, hg, ht] <;>
    exact ⟨trivial, fun i => by
      rw [lookupk_buildPages]
      by_cases h0 : i = 0 <;> simp [h0, Nat.lt_succ_iff]⟩

def keysetView : ResultsView :=
  { freshView "Browse" (getDefaultAdvancedFilter none) with
    data := { (freshView "Browse" (getDefaultAdvancedFilter none)).data with searchId := 1 } }

def keysetPayload : SearchAddDataActionData :=
  { searchId := 1
    page := none
    games := none
    total := some 3
    pages := none
    keyset := some [{ val := "c1" }, { val := "c2" }] }

theorem addData_keyset_rebuild_witness :
    (addDataView keysetView keysetPayload).data.keyset = [{ val := "c1" }, { val := "c2" }] ∧
    ∀ i : Nat,
      lookupk (addDataView keysetView keysetPayload).data.pages i =
        if i = 0 then some RequestState.RECEIVED
        else if i ≤ ([{ val := "c1" }, { val := "c2" }] : List Cursor).length
          then some RequestState.WAITING
        else none :=
  addData_keyset_rebuild keysetView keysetPayload _ (by decide) (by decide) (by decide)
    (by decide)

/-- A matching-generation payload carrying a keyset of length 2 AND a
partial page-state section `{2: REQUESTED}` (merge step 5, lines 672-675
of the source). -/
def hybridPagesPayload : SearchAddDataActionData :=
  { searchId := 1
    page := none
    games := none
    total := none
    pages := some [(2, RequestState.REQUESTED)]
    keyset := some [{ val := "c1" }, { val := "c2" }] }

/-- A matching-generation payload carrying a keyset of length 2 AND a
delivered page `1` with one record (merge step 6, line 686 of the
source). -/
def hybridPagePayload : SearchAddDataActionData :=
  { searchId := 1
    page := some 1
    games := some [{ id := "g1" }]
    total := none
    pages := none
    keyset := some [{ val := "c1" }, { val := "c2" }] }

/-- Claim C5, as stated over EVERY matching-generation payload carrying a
keyset, is false on the code: both hybrid payloads carry a keyset of
length 2, so the claim predicts the final page table
`{0: RECEIVED, 1: WAITING, 2: WAITING}`; but the payload's `pages` section
is `Object.assign`ed over the rebuilt table (page 2 ends `REQUESTED`, not
`WAITING`), and a delivered page is flipped to `RECEIVED` after the
rebuild (page 1 ends `RECEIVED`, not `WAITING`). -/
theorem addData_keyset_rebuild_claim_false :
    lookupk (addDataView keysetView hybridPagesPayload).data.pages 2
      = some RequestState.REQUESTED ∧
    lookupk (addDataView keysetView hybridPagesPayload).data.pages 2
      ≠ some RequestState.WAITING ∧
    lookupk (addDataView keysetView hybridPagePayload).data.pages 1
      = some RequestState.RECEIVED ∧
    lookupk (addDataView keysetView hybridPagePayload).data.pages 1
      ≠ some RequestState.WAITING :=
  ⟨by decide, by decide, by decide, by decide⟩

/-! ## `requestRange` page dependencies (claim C6) -/

theorem requestLoop_change (ks : List Cursor) :
    ∀ (count : Nat) (pages : List (Nat × RequestState)) (start i : Nat),
      lookupk (requestLoop ks pages start count) i ≠ lookupk pages i →
      0 < i ∧ lookupk pages i = some RequestState.WAITING ∧
        lookupk (requestLoop ks pages start count) i = some RequestState.REQUESTED ∧
        i - 1 < ks.length := by
  intro count
  induction count with
  | zero =>
    intro pages start i h
    exact absurd rfl h
  | succ n ih =>
    intro pages start i h
    rw [requestLoop] at h ⊢
    by_cases hc : 0 < start ∧ lookupk pages start = some RequestState.WAITING ∧
        start - 1 < ks.length
    · rw [if_pos hc] at h ⊢
      by_cases hchg :
          lookupk (requestLoop ks (setk pages start RequestState.REQUESTED) (start + 1) n) i
            = lookupk (setk pages start RequestState.REQUESTED) i
      · -- the only change is this step's `setk`, so `i = start`
        rw [hchg] at h ⊢
        rw [lookupk_setk] at h ⊢
        by_cases hi : i = start
        · subst hi
          simp only [if_pos rfl]
          exact ⟨hc.1, hc.2.1, rfl, hc.2.2⟩
        · rw [if_neg hi] at h
          exact absurd rfl h
      · obtain ⟨h1, h2, h3, h4⟩ := ih _ (start + 1) i hchg
        refine ⟨h1, ?_, h3, h4⟩
        rw [lookupk_setk] at h2
        by_cases hi : i = start
        · rw [if_pos hi] at h2
          exact absurd h2 (by simp)
        · rwa [if_neg hi] at h2
    · rw [if_neg hc] at h ⊢
      exact ih _ (start + 1) i h

/-- Claim C6: `requestRange` never changes a page state unless the page is
`i > 0`, the caller's `searchId` matches the view's current one, the page
was `WAITING` and the cursor `keyset[i-1]` exists — and then the only
change is flipping the page to `REQUESTED`.  In particular, a mismatched
`searchId` changes no page state at all, and a page `i > 0` only goes from
`WAITING` to `REQUESTED` when `keyset[i-1]` is set. -/
theorem requestRange_page_dependency (v : ResultsView)
    (searchId start count i : Nat)
    (hchg : lookupk (requestRangeView v searchId start count).data.pages i
      ≠ lookupk v.data.pages i) :
    0 < i ∧ searchId = v.data.searchId ∧
      lookupk v.data.pages i = some RequestState.WAITING ∧
      lookupk (requestRangeView v searchId start count).data.pages i
        = some RequestState.REQUESTED ∧
      i - 1 < v.data.keyset.length := by
  unfold requestRangeView at hchg ⊢
  by_cases hs : v.data.searchId = searchId
  · rw [if_pos hs] at hchg ⊢
    obtain ⟨h1, h2, h3, h4⟩ := requestLoop_change v.data.keyset count v.data.pages start i hchg
    exact ⟨h1, hs.symm, h2, h3, h4⟩
  · rw [if_neg hs] at hchg
    exact absurd rfl hchg

def rangeView : ResultsView :=
  { keysetView with
    data :=
      { keysetView.data with
        pages := [(0, RequestState.RECEIVED), (1, RequestState.WAITING),
          (2, RequestState.WAITING)]
        keyset := [{ val := "c1" }] } }

theorem requestRange_page_dependency_witness :
    0 < 1 ∧ (1 : Nat) = rangeView.data.searchId ∧
      lookupk rangeView.data.pages 1 = some RequestState.WAITING ∧
      lookupk (requestRangeView rangeView 1 0 3).data.pages 1
        = some RequestState.REQUESTED ∧
      1 - 1 < rangeView.data.keyset.length :=
  requestRange_page_dependency rangeView 1 0 3 1 (by decide)

/-! ## `deleteView` default-view synthesis (claim C9) -/

/-- Claim C9: deleting the last non-general view (the registry then holding
exactly the general view and that view, in either order) synthesizes a
default view named "Browse" with an empty cache (`searchId` 0, no records,
no pages, empty keyset): afterwards the registry holds the untouched
general view plus this default view. -/
theorem deleteView_synthesizes_default (s : SearchState) (gv xv : ResultsView)
    (name : String) (hne : name ≠ GENERAL_VIEW_ID)
    (hviews : s.views = [(GENERAL_VIEW_ID, gv), (name, xv)] ∨
      s.views = [(name, xv), (GENERAL_VIEW_ID, gv)]) :
    (deleteView s name).views =
      [(GENERAL_VIEW_ID, gv),
        ("Browse", freshView "Browse" (getDefaultAdvancedFilter none))] ∧
    (freshView "Browse" (getDefaultAdvancedFilter none)).data =
      { searchId := 0
        games := []
        total := none
        pages := []
        keyset := []
        metaState := RequestState.WAITING } := by
  have hB : ¬("Browse" : String) = GENERAL_VIEW_ID := by decide
  refine ⟨?_, rfl⟩
  rcases hviews with hv | hv <;>
    simp [deleteView, hv, lookupk, delIns, setIns, hne, Ne.symm hne, hB,
      fun h : GENERAL_VIEW_ID = name => hne h.symm]

def lastBrowseState : SearchState :=
  { views := [(GENERAL_VIEW_ID, defaultGeneralState),
      ("Browse", freshView "Browse" (getDefaultAdvancedFilter none))] }

theorem deleteView_synthesizes_default_witness :
    (deleteView lastBrowseState "Browse").views =
      [(GENERAL_VIEW_ID, defaultGeneralState),
        ("Browse", freshView "Browse" (getDefaultAdvancedFilter none))] ∧
    (freshView "Browse" (getDefaultAdvancedFilter none)).data =
      { searchId := 0
        games := []
        total := none
        pages := []
        keyset := []
        metaState := RequestState.WAITING } :=
  deleteView_synthesizes_default lastBrowseState defaultGeneralState
    (freshView "Browse" (getDefaultAdvancedFilter none)) "Browse" (by decide)
    (Or.inl (by decide))

/-! ## `renameView` onto an existing destination (claim C10) -/

/-- Claim C10 (implicit behaviour): `renameView(old, new)` with an existing
`old` and a `new` that already names another view silently overwrites the
destination (its entry now holds the renamed view, `id` updated, and the
old key is gone) — the rename is not rejected. -/
theorem renameView_overwrites_destination (s : SearchState) (old new : String)
    (v w : ResultsView) (hnd : (s.views.map Prod.fst).Nodup)
    (hold : lookupk s.views old = some v) (hnew : lookupk s.views new = some w)
    (hne : old ≠ new) :
    lookupk (renameView s old new).views new = some { v with id := new } ∧
    lookupk (renameView s old new).views old = none := by
  simp only [renameView, hold]
  constructor
  · rw [lookupk_delIns_ne _ (Ne.symm hne), lookupk_setIns, if_pos rfl]
  · rw [lookupk_delIns_self (nodup_keys_setIns hnd new { v with id := new }) old]

def overwriteState : SearchState :=
  { views := [(GENERAL_VIEW_ID, defaultGeneralState),
      ("Arcade", freshView "Arcade" (getDefaultAdvancedFilter none)),
      ("Browse", freshView "Browse" (getDefaultAdvancedFilter none))] }

theorem renameView_overwrites_destination_witness :
    lookupk (renameView overwriteState "Arcade" "Browse").views "Browse" =
      some { freshView "Arcade" (getDefaultAdvancedFilter none) with id := "Browse" } ∧
    lookupk (renameView overwriteState "Arcade" "Browse").views "Arcade" = none :=
  renameView_overwrites_destination overwriteState "Arcade" "Browse"
    (freshView "Arcade" (getDefaultAdvancedFilter none))
    (freshView "Browse" (getDefaultAdvancedFilter none))
    (by decide) (by decide) (by decide) (by decide)

/-! ## The distinguished general view (claim C8) -/

theorem lookupk_createLoop {views : List (String × ResultsView)} {w : ResultsView}
    (h : lookupk views GENERAL_VIEW_ID = some w) (names : List String)
    (af : String → AdvancedFilter) :
    lookupk (createLoop views names af) GENERAL_VIEW_ID = some w := by
  induction names generalizing views with
  | nil => exact h
  | cons name ns ih =>
    show lookupk
      (createLoop
        (match lookupk views name with
          | some _ => views
          | none => setIns views name (freshView name (af name))) ns af)
      GENERAL_VIEW_ID = some w
    cases hn : lookupk views name with
    | some x => exact ih h
    | none =>
      refine ih ?_
      have hne : GENERAL_VIEW_ID ≠ name := by
        intro hc
        rw [hc, hn] at h
        exact Option.noConfusion h
      rw [lookupk_setIns, if_neg hne]
      exact h

theorem lookupk_foldModAssoc {β : Type} (l : List β) (key : β → String)
    (f : β → ResultsView → ResultsView) (hf : ∀ b x, (f b x).id = x.id)
    {acc : List (String × ResultsView)} {w : ResultsView}
    (h : lookupk acc GENERAL_VIEW_ID = some w) :
    ∃ w', lookupk (l.foldl (fun a b => modAssoc a (key b) (f b)) acc)
        GENERAL_VIEW_ID = some w' ∧ w'.id = w.id := by
  induction l generalizing acc w with
  | nil => exact ⟨w, h, rfl⟩
  | cons b bs ih =>
    show ∃ w', lookupk (bs.foldl (fun a b => modAssoc a (key b) (f b))
      (modAssoc acc (key b) (f b))) GENERAL_VIEW_ID = some w' ∧ w'.id = w.id
    by_cases hk : GENERAL_VIEW_ID = key b
    · obtain ⟨w', hw', hid⟩ := @ih (modAssoc acc (key b) (f b)) (f b w)
        (by rw [lookupk_modAssoc, if_pos hk, h]; rfl)
      exact ⟨w', hw', by rw [hid, hf b w]⟩
    · exact ih (by rw [lookupk_modAssoc, if_neg hk]; exact h)

/-- Claim C8 (amended): the general view survives, with its identity
untouched, every registry operation except `deleteView` applied to the
general id itself and `renameView` whose old or new name is the general id:
`createViews`/`addViews` preserve its presence and `id` (stored settings
may update its filters), and `duplicateView`, `deleteView` of another name,
and `renameView` between two other names leave its entry exactly as it
was.  (As the counterexample shows, `deleteView` of the general id does
delete it, and `renameView` onto the general id overwrites it.) -/
theorem generalView_preserved (s : SearchState) (gv : ResultsView)
    (hG : lookupk s.views GENERAL_VIEW_ID = some gv) :
    (∀ names stored areLib loadText,
      ∃ gv', lookupk (createViews s names stored areLib loadText).views
          GENERAL_VIEW_ID = some gv' ∧ gv'.id = gv.id) ∧
    (∀ names stored loadText,
      ∃ gv', lookupk (addViews s names stored loadText).views GENERAL_VIEW_ID
        = some gv' ∧ gv'.id = gv.id) ∧
    (∀ o n, lookupk (duplicateView s o n).views GENERAL_VIEW_ID = some gv) ∧
    (∀ name, name ≠ GENERAL_VIEW_ID →
      lookupk (deleteView s name).views GENERAL_VIEW_ID = some gv) ∧
    (∀ o n, o ≠ GENERAL_VIEW_ID → n ≠ GENERAL_VIEW_ID →
      lookupk (renameView s o n).views GENERAL_VIEW_ID = some gv) := by
  have hBG : GENERAL_VIEW_ID ≠ "Browse" := by decide
  refine ⟨?_, ?_, ?_, ?_, ?_⟩
  · intro names stored areLib loadText
    have hbase : lookupk
        (match lookupk s.views GENERAL_VIEW_ID with
          | some gv' => [(GENERAL_VIEW_ID, gv')]
          | none => ([] : List (String × ResultsView))) GENERAL_VIEW_ID = some gv := by
      rw [hG]
      simp [lookupk]
    have hloop := lookupk_createLoop hbase names
      (fun name => getDefaultAdvancedFilter (if areLib then some name else none))
    cases stored with
    | none => exact ⟨gv, hloop, rfl⟩
    | some svs =>
      exact lookupk_foldModAssoc svs StoredView.view
        (fun sv v =>
          { v with
            text := if loadText then sv.text else v.text
            advancedFilter := sv.advancedFilter
            orderBy := sv.orderBy
            orderReverse := sv.orderReverse
            expanded := sv.expanded })
        (fun _ _ => rfl) hloop
  · intro names stored loadText
    have hloop := lookupk_createLoop hG names (fun _ => getDefaultAdvancedFilter none)
    cases stored with
    | none => exact ⟨gv, hloop, rfl⟩
    | some svs =>
      exact lookupk_foldModAssoc svs StoredView.view
        (fun sv v =>
          { v with
            text := if loadText then sv.text else v.text
            advancedFilter := sv.advancedFilter
            orderBy := sv.orderBy
            orderReverse := sv.orderReverse })
        (fun _ _ => rfl) hloop
  · intro o n
    cases ho : lookupk s.views o with
    | none =>
      cases hn : lookupk s.views n with
      | none => simpa [duplicateView, ho, hn] using hG
      | some x => simpa [duplicateView, ho, hn] using hG
    | some src =>
      cases hn : lookupk s.views n with
      | some x => simpa [duplicateView, ho, hn] using hG
      | none =>
        have hne : GENERAL_VIEW_ID ≠ n := by
          intro hc
          rw [hc, hn] at hG
          exact Option.noConfusion hG
        simp only [duplicateView, ho, hn]
        rw [lookupk_setIns, if_neg hne]
        exact hG
  · intro name hne
    have hGn : GENERAL_VIEW_ID ≠ name := Ne.symm hne
    have h1 : lookupk
        (match lookupk s.views name with
          | some _ => delIns s.views name
          | none => s.views) GENERAL_VIEW_ID = some gv := by
      cases hn : lookupk s.views name with
      | some x => rw [lookupk_delIns_ne _ hGn]; exact hG
      | none => exact hG
    simp only [deleteView]
    split
    · rw [lookupk_setIns, if_neg hBG]
      exact h1
    · exact h1
  · intro o n ho hn
    cases hv : lookupk s.views o with
    | none => simpa [renameView, hv] using hG
    | some x =>
      simp only [renameView, hv]
      rw [lookupk_delIns_ne _ (Ne.symm ho), lookupk_setIns, if_neg (Ne.symm hn)]
      exact hG

theorem generalView_preserved_witness :
    (∀ names stored areLib loadText,
      ∃ gv', lookupk (createViews lastBrowseState names stored areLib loadText).views
          GENERAL_VIEW_ID = some gv' ∧ gv'.id = defaultGeneralState.id) ∧
    (∀ names stored loadText,
      ∃ gv', lookupk (addViews lastBrowseState names stored loadText).views
          GENERAL_VIEW_ID = some gv' ∧ gv'.id = defaultGeneralState.id) ∧
    (∀ o n, lookupk (duplicateView lastBrowseState o n).views GENERAL_VIEW_ID
      = some defaultGeneralState) ∧
    (∀ name, name ≠ GENERAL_VIEW_ID →
      lookupk (deleteView lastBrowseState name).views GENERAL_VIEW_ID
        = some defaultGeneralState) ∧
    (∀ o n, o ≠ GENERAL_VIEW_ID → n ≠ GENERAL_VIEW_ID →
      lookupk (renameView lastBrowseState o n).views GENERAL_VIEW_ID
        = some defaultGeneralState) :=
  generalView_preserved lastBrowseState defaultGeneralState (by decide)

def overwritingBrowseView : ResultsView :=
  { freshView "Browse" (getDefaultAdvancedFilter none) with text := "zzz" }

def renameOntoGeneralState : SearchState :=
  { views := [(GENERAL_VIEW_ID, defaultGeneralState),
      ("Browse", overwritingBrowseView)] }

/-- Claim C8, as stated, is false on the code: `deleteView` applied to the
general view's id removes the general view (from the initial state it even
empties the registry, because the "add Browse back" guard looks for exactly
one leftover view), and `renameView` of another view onto the general id
overwrites the general view's entry with the renamed view. -/
theorem generalView_not_protected :
    lookupk (deleteView initialState GENERAL_VIEW_ID).views GENERAL_VIEW_ID = none ∧
    (deleteView initialState GENERAL_VIEW_ID).views = [] ∧
    (renameView renameOntoGeneralState "Browse" GENERAL_VIEW_ID).views =
      [(GENERAL_VIEW_ID, { overwritingBrowseView with id := GENERAL_VIEW_ID })] ∧
    ({ overwritingBrowseView with id := GENERAL_VIEW_ID } : ResultsView)
      ≠ defaultGeneralState := by
  refine ⟨by decide, by decide, by decide, by decide⟩

/-! ## `movePlaylistGame` (claim C7): list-surgery lemmas -/

theorem jsFindIndex_some_decomp {α : Type} {p : α → Bool} {l : List α} {i : Nat}
    (h : jsFindIndex p l = some i) :
    ∃ l1 x l2, l = l1 ++ x :: l2 ∧ l1.length = i ∧ p x = true := by
  induction l generalizing i with
  | nil => exact Option.noConfusion h
  | cons a t ih =>
    rw [jsFindIndex] at h
    by_cases hp : p a
    · rw [if_pos hp] at h
      refine ⟨[], a, t, rfl, ?_, hp⟩
      simpa using h
    · rw [if_neg hp] at h
      cases hf : jsFindIndex p t with
      | none =>
        rw [hf] at h
        exact Option.noConfusion h
      | some j =>
        rw [hf] at h
        have hji : j + 1 = i := by simpa using h
        obtain ⟨l1, x, l2, hl, hlen, hx⟩ := ih hf
        exact ⟨a :: l1, x, l2, by simp [hl], by simp [hlen, hji], hx⟩

theorem jsFindIndex_exists_of_mem {α : Type} {p : α → Bool} {l : List α} {x : α}
    (hx : x ∈ l) (hp : p x = true) : ∃ i, jsFindIndex p l = some i := by
  induction l with
  | nil => cases hx
  | cons a t ih =>
    by_cases hpa : p a
    · exact ⟨0, by rw [jsFindIndex, if_pos hpa]⟩
    · rcases List.mem_cons.mp hx with h | h
      · exact absurd (h ▸ hp) hpa
      · obtain ⟨j, hj⟩ := ih h
        exact ⟨j + 1, by rw [jsFindIndex, if_neg hpa, hj]; rfl⟩

theorem getD_append_length {α : Type} (l1 : List α) (x : α) (l2 : List α) (dd : α) :
    (l1 ++ x :: l2).getD l1.length dd = x := by
  induction l1 with
  | nil => rfl
  | cons a t ih => simpa using ih

theorem jsSpliceRemove_append {α : Type} (l1 : List α) (x : α) (l2 : List α) :
    jsSpliceRemove (l1 ++ x :: l2) l1.length = l1 ++ l2 := by
  unfold jsSpliceRemove
  induction l1 with
  | nil => simp
  | cons a t ih => simpa using ih

theorem jsSpliceInsert_at_append {α : Type} (l1 : List α) (x y : α) (l2 : List α) :
    jsSpliceInsert (l1 ++ x :: l2) l1.length y = l1 ++ y :: x :: l2 := by
  unfold jsSpliceInsert
  induction l1 with
  | nil => simp
  | cons a t ih => simpa using ih

theorem jsSpliceInsert_after_append {α : Type} (l1 : List α) (x y : α) (l2 : List α) :
    jsSpliceInsert (l1 ++ x :: l2) (l1.length + 1) y = l1 ++ x :: y :: l2 := by
  unfold jsSpliceInsert
  induction l1 with
  | nil => simp
  | cons a t ih => simpa using ih

def pgEntry (g : String) : PlaylistGame := { gameId := g, notes := "" }

def moveExamplePlaylist : Playlist :=
  { id := "p", games := [pgEntry "A", pgEntry "B", pgEntry "C", pgEntry "D"] }

/-- The spec's scenario: playlist `[A,B,C,D]` with `A`,`B`,`C` materialized
at offsets 0,1,2. -/
def moveDownView : ResultsView :=
  { keysetView with
    selectedPlaylist := some moveExamplePlaylist
    data :=
      { keysetView.data with
        games := [((0 : Int), { id := "A" }), (1, { id := "B" }), (2, { id := "C" })] } }

/-- Claim C7 (amended): when the playlist contains entries for both ids,
the moved entry ends immediately AFTER the destination entry if it started
before it, and immediately BEFORE the destination entry if it started after
it; and in the spec's concrete scenario (playlist `[A,B,C,D]`, `A`,`B`,`C`
materialized at offsets 0,1,2, move `A` after `C`) the record store becomes
`{0:B, 1:C, 2:A}` and the playlist `[B,C,A,D]`. -/
theorem movePlaylistGame_reorders (v : ResultsView) (pl : Playlist)
    (s d : String) (si di : Nat) (hpl : v.selectedPlaylist = some pl)
    (hs : jsFindIndex (fun g => g.gameId == s) pl.games = some si)
    (hd : jsFindIndex (fun g => g.gameId == d) pl.games = some di)
    (hne : s ≠ d) :
    (∃ pre post eD eS, eD.gameId = d ∧ eS.gameId = s ∧
      (movePlaylistGameView v s d).selectedPlaylist =
        some { pl with games :=
          if si < di then pre ++ eD :: eS :: post else pre ++ eS :: eD :: post }) ∧
    (movePlaylistGameView moveDownView "A" "C").data.games =
      [((0 : Int), { id := "B" }), (1, { id := "C" }), (2, { id := "A" })] ∧
    (movePlaylistGameView moveDownView "A" "C").selectedPlaylist =
      some { id := "p", games := [pgEntry "B", pgEntry "C", pgEntry "A", pgEntry "D"] } := by
  refine ⟨?_, by decide, by decide⟩
  obtain ⟨S1, eS, S2, hSdec, hSlen, hpS⟩ := jsFindIndex_some_decomp hs
  obtain ⟨D1, eD0, D2, hDdec, hDlen, hpD⟩ := jsFindIndex_some_decomp hd
  have heSid : eS.gameId = s := by simpa using hpS
  have heDid0 : eD0.gameId = d := by simpa using hpD
  have hSG : pl.games.getD si { gameId := "", notes := "" } = eS := by
    rw [hSdec, ← hSlen]
    exact getD_append_length S1 eS S2 _
  have hrem : jsSpliceRemove pl.games si = S1 ++ S2 := by
    rw [hSdec, ← hSlen]
    exact jsSpliceRemove_append S1 eS S2
  have heDmem : eD0 ∈ S1 ++ S2 := by
    have hmem : eD0 ∈ pl.games := by
      rw [hDdec]
      simp
    rw [hSdec] at hmem
    rcases List.mem_append.mp hmem with h | h
    · exact List.mem_append.mpr (Or.inl h)
    · rcases List.mem_cons.mp h with h | h
      · exact absurd (h ▸ heDid0) (by rw [heSid]; exact hne)
      · exact List.mem_append.mpr (Or.inr h)
  obtain ⟨d2, hd2⟩ :=
    @jsFindIndex_exists_of_mem _ (fun g => g.gameId == d) _ _ heDmem
      (by simp [heDid0])
  obtain ⟨N1, eD, N2, hNdec, hNlen, hpD2⟩ := jsFindIndex_some_decomp hd2
  have heDid : eD.gameId = d := by simpa using hpD2
  have hd2' : jsFindIndex (fun g => g.gameId == d) (jsSpliceRemove pl.games si)
      = some d2 := by rw [hrem]; exact hd2
  have hd2len : d2 < (jsSpliceRemove pl.games si).length := by
    rw [hrem, hNdec, ← hNlen]
    simp
  refine ⟨N1, N2, eD, eS, heDid, heSid, ?_⟩
  by_cases hlt : si < di
  · rw [if_pos hlt]
    simp only [movePlaylistGameView, hpl, hs, hd, hSG, hd2', if_pos hlt,
      if_pos hd2len]
    have : jsSpliceInsert (jsSpliceRemove pl.games si) (d2 + 1) eS
        = N1 ++ eD :: eS :: N2 := by
      rw [hrem, hNdec, ← hNlen]
      exact jsSpliceInsert_after_append N1 eD eS N2
    rw [this]
  · rw [if_neg hlt]
    simp only [movePlaylistGameView, hpl, hs, hd, hSG, hd2', if_neg hlt]
    have : jsSpliceInsert (jsSpliceRemove pl.games si) d2 eS
        = N1 ++ eS :: eD :: N2 := by
      rw [hrem, hNdec, ← hNlen]
      exact jsSpliceInsert_at_append N1 eD eS N2
    rw [this]

theorem movePlaylistGame_reorders_witness :
    (∃ pre post eD eS, eD.gameId = "C" ∧ eS.gameId = "A" ∧
      (movePlaylistGameView moveDownView "A" "C").selectedPlaylist =
        some { moveExamplePlaylist with games :=
          if (0 : Nat) < 2 then pre ++ eD :: eS :: post
          else pre ++ eS :: eD :: post }) ∧
    (movePlaylistGameView moveDownView "A" "C").data.games =
      [((0 : Int), { id := "B" }), (1, { id := "C" }), (2, { id := "A" })] ∧
    (movePlaylistGameView moveDownView "A" "C").selectedPlaylist =
      some { id := "p", games := [pgEntry "B", pgEntry "C", pgEntry "A", pgEntry "D"] } :=
  movePlaylistGame_reorders moveDownView moveExamplePlaylist "A" "C" 0 2
    (by decide) (by decide) (by decide) (by decide)

/-- Playlist `[A,B,C,D]` fully materialized at offsets 0-3. -/
def moveUpView : ResultsView :=
  { keysetView with
    selectedPlaylist := some moveExamplePlaylist
    data :=
      { keysetView.data with
        games := [((0 : Int), { id := "A" }), (1, { id := "B" }), (2, { id := "C" }),
          (3, { id := "D" })] } }

/-- Playlist `[X,A,C]` with only `A`,`C` materialized, at offsets 0,1. -/
def movePartialView : ResultsView :=
  { keysetView with
    selectedPlaylist := some { id := "p", games := [pgEntry "X", pgEntry "A", pgEntry "C"] }
    data :=
      { keysetView.data with
        games := [((0 : Int), { id := "A" }), (1, { id := "C" })] } }

/-- Claim C7, as stated, is false on the code.  Moving `D` after `B` in
`[A,B,C,D]` yields `[A,D,B,C]`: the source entry is inserted immediately
BEFORE the destination, so no `[B,D]` run exists anywhere in the result.
And with playlist `[X,A,C]` and `A`,`C` materialized at offsets 0,1, moving
`A` after `C` leaves the record store as `{1:C}`: the moved record `A` is
not at the destination's offset — it is gone (the code mixes up the
playlist index `sourceIdx` with the entries-array index `sourceIndex`). -/
theorem movePlaylistGame_after_claim_false :
    (movePlaylistGameView moveUpView "D" "B").selectedPlaylist =
      some { id := "p"
             games := [pgEntry "A", pgEntry "D", pgEntry "B", pgEntry "C"] } ∧
    ¬ List.IsInfix [pgEntry "B", pgEntry "D"]
      (((movePlaylistGameView moveUpView "D" "B").selectedPlaylist.getD
        { id := "", games := [] }).games) ∧
    (movePlaylistGameView movePartialView "A" "C").data.games =
      [((1 : Int), { id := "C" })] ∧
    lookupk (movePlaylistGameView movePartialView "A" "C").data.games 1
      ≠ some { id := "A" } :=
  ⟨by decide, by decide, by decide, by decide⟩

/-! ## Idempotence of the merge (claim C4): map lemmas -/

theorem pairwise_ne_of_sortedk {κ α : Type} [LinearOrder κ] {l : List (κ × α)}
    (h : Sortedk l) : l.Pairwise (fun a b => a.1 ≠ b.1) :=
  h.imp ne_of_lt

theorem setk_setk_same {κ α : Type} [LinearOrder κ] (m : List (κ × α)) (k : κ)
    (v w : α) : setk (setk m k v) k w = setk m k w := by
  induction m with
  | nil => simp [setk]
  | cons hd t ih =>
    obtain ⟨k₀, v₀⟩ := hd
    by_cases h1 : k < k₀
    · simp [setk, h1, lt_irrefl]
    · by_cases h2 : k = k₀
      · subst h2
        simp [setk, h1, lt_irrefl]
      · simp [setk, h1, h2, ih]

theorem assignk_idem {κ α : Type} [LinearOrder κ] {m : List (κ × α)}
    (hm : Sortedk m) {ps : List (κ × α)} (hps : Sortedk ps) :
    assignk (assignk m ps) ps = assignk m ps := by
  have hne := pairwise_ne_of_sortedk hps
  refine sortedk_ext (sortedk_assignk (sortedk_assignk hm ps) ps)
    (sortedk_assignk hm ps) (fun k => ?_)
  rw [lookupk_assignk hne, lookupk_assignk hne]
  cases h : lookupk ps k with
  | some v => rfl
  | none => rfl

theorem sortedk_writeGames {m : List (Int × ViewGame)} (hm : Sortedk m)
    (idx : Int) (gs : List ViewGame) : Sortedk (writeGames m idx gs) := by
  induction gs generalizing m idx with
  | nil => exact hm
  | cons g t ih => exact ih (sortedk_setk hm idx g) (idx + 1)

/-- `writeGames` only touches keys at or above its starting offset. -/
theorem lookupk_writeGames_lt (m : List (Int × ViewGame)) (idx : Int)
    (gs : List ViewGame) {k : Int} (hk : k < idx) :
    lookupk (writeGames m idx gs) k = lookupk m k := by
  induction gs generalizing m idx with
  | nil => rfl
  | cons g t ih =>
    rw [writeGames, ih (setk m idx g) (idx + 1) (by omega)]
    rw [lookupk_setk, if_neg (by omega : ¬k = idx)]

theorem writeGames_idem {m : List (Int × ViewGame)} (hm : Sortedk m)
    (idx : Int) (gs : List ViewGame) :
    writeGames (writeGames m idx gs) idx gs = writeGames m idx gs := by
  induction gs generalizing m idx with
  | nil => rfl
  | cons g t ih =>
    have hW : lookupk (writeGames (setk m idx g) (idx + 1) t) idx = some g := by
      rw [lookupk_writeGames_lt _ _ _ (by omega)]
      rw [lookupk_setk, if_pos rfl]
    have hsW : Sortedk (writeGames (setk m idx g) (idx + 1) t) :=
      sortedk_writeGames (sortedk_setk hm idx g) (idx + 1) t
    calc writeGames (writeGames m idx (g :: t)) idx (g :: t)
        = writeGames
            (setk (writeGames (setk m idx g) (idx + 1) t) idx g) (idx + 1) t := rfl
      _ = writeGames (writeGames (setk m idx g) (idx + 1) t) (idx + 1) t := by
          rw [setk_eq_self hsW hW]
      _ = writeGames (setk m idx g) (idx + 1) t := ih (sortedk_setk hm idx g) (idx + 1)
      _ = writeGames m idx (g :: t) := rfl

/-! ## Normal form of the merge: what each field of the cache becomes -/

def keysetF (p : SearchAddDataActionData) (k : List Cursor) : List Cursor :=
  match p.keyset with
  | some ks => ks
  | none => k

def metaF (p : SearchAddDataActionData) (m : RequestState) : RequestState :=
  match p.page, p.games with
  | some _, some _ => RequestState.RECEIVED
  | _, _ => m

def scrollF (p : SearchAddDataActionData) (x : Option Nat) : Option Nat :=
  match p.total with
  | some _ => none
  | none => x

def totalF (p : SearchAddDataActionData) (t : Option Nat) : Option Nat :=
  match p.page, p.games with
  | some pg, some gs =>
    if pg = 0 ∧ gs = [] then some 0
    else
      match p.total with
      | some x => some x
      | none => t
  | _, _ =>
    match p.total with
    | some x => some x
    | none => t

def gamesF (p : SearchAddDataActionData) (G : List (Int × ViewGame)) :
    List (Int × ViewGame) :=
  match p.page, p.games with
  | some pg, some gs =>
    if pg = 0 ∧ gs = [] then G
    else writeGames G ((VIEW_PAGE_SIZE : Int) * pg) gs
  | _, _ => G

def pagesF (p : SearchAddDataActionData) (P : List (Nat × RequestState)) :
    List (Nat × RequestState) :=
  let P1 :=
    match p.keyset with
    | some ks => buildPages (ks.length + 1)
    | none => P
  let P2 :=
    match p.pages with
    | some ps => assignk P1 ps
    | none => P1
  match p.page, p.games with
  | some pg, some gs =>
    if pg = 0 ∧ gs = [] then P2 else setk P2 pg RequestState.RECEIVED
  | _, _ => P2

theorem mergeData_eq (v : ResultsView) (p : SearchAddDataActionData) :
    mergeData v p =
      { v with
        data :=
          { searchId := v.data.searchId
            games := gamesF p v.data.games
            total := totalF p v.data.total
            pages := pagesF p v.data.pages
            keyset := keysetF p v.data.keyset
            metaState := metaF p v.data.metaState }
        gridScrollCol := scrollF p v.gridScrollCol
        gridScrollRow := scrollF p v.gridScrollRow
        listScrollRow := scrollF p v.listScrollRow } := by
  cases ht : p.total <;> cases hk : p.keyset <;> cases hpp : p.pages <;>
    cases hpg : p.page <;> cases hg : p.games <;>
      simp only [mergeData, applyTotal, applyKeyset, applyPages, applyPageGames,
        keysetF, metaF, scrollF, totalF, gamesF, pagesF, ht, hk, hpp, hpg, hg] <;>
      first
        | rfl
        | (split <;> rfl)

theorem keysetF_idem (p : SearchAddDataActionData) (k : List Cursor) :
    keysetF p (keysetF p k) = keysetF p k := by
  cases h : p.keyset <;> simp [keysetF, h]

theorem metaF_idem (p : SearchAddDataActionData) (m : RequestState) :
    metaF p (metaF p m) = metaF p m := by
  cases h1 : p.page <;> cases h2 : p.games <;> simp [metaF, h1, h2]

theorem scrollF_idem (p : SearchAddDataActionData) (x : Option Nat) :
    scrollF p (scrollF p x) = scrollF p x := by
  cases h : p.total <;> simp [scrollF, h]

theorem totalF_idem (p : SearchAddDataActionData) (t : Option Nat) :
    totalF p (totalF p t) = totalF p t := by
  cases ht : p.total <;> cases h1 : p.page <;> cases h2 : p.games <;>
    simp only [totalF, ht, h1, h2] <;>
    first
      | rfl
      | (split <;> rfl)

theorem gamesF_idem (p : SearchAddDataActionData) {G : List (Int × ViewGame)}
    (hG : Sortedk G) : gamesF p (gamesF p G) = gamesF p G := by
  cases h1 : p.page <;> cases h2 : p.games <;> simp only [gamesF, h1, h2]
  split
  · rfl
  · exact writeGames_idem hG _ _

theorem pagesF_idem (p : SearchAddDataActionData) {P : List (Nat × RequestState)}
    (hP : Sortedk P) (hps : ∀ ps, p.pages = some ps → Sortedk ps) :
    pagesF p (pagesF p P) = pagesF p P := by
  cases hk : p.keyset with
  | some ks =>
    -- the rebuilt page table does not depend on the previous one
    cases hpp : p.pages <;> cases h1 : p.page <;> cases h2 : p.games <;>
      simp only [pagesF, hk, hpp, h1, h2] <;>
      first
        | rfl
        | (split <;> rfl)
  | none =>
    cases hpp : p.pages with
    | none =>
      cases h1 : p.page <;> cases h2 : p.games <;> simp only [pagesF, hk, hpp, h1, h2]
      split
      · rfl
      · exact setk_setk_same P _ _ _
    | some ps =>
      have hsps : Sortedk ps := hps ps hpp
      have hneps := pairwise_ne_of_sortedk hsps
      cases h1 : p.page <;> cases h2 : p.games <;> simp only [pagesF, hk, hpp, h1, h2]
      case none.none | none.some | some.none =>
        exact assignk_idem hP hsps
      case some.some pg gs =>
        split
        · exact assignk_idem hP hsps
        · next hps0 =>
          refine sortedk_ext
            (sortedk_setk (sortedk_assignk
              (sortedk_setk (sortedk_assignk hP ps) pg RequestState.RECEIVED) ps)
              pg RequestState.RECEIVED)
            (sortedk_setk (sortedk_assignk hP ps) pg RequestState.RECEIVED)
            (fun k => ?_)
          rw [lookupk_setk, lookupk_setk]
          by_cases hkpg : k = pg
          · rw [if_pos hkpg, if_pos hkpg]
          · rw [if_neg hkpg, if_neg hkpg, lookupk_assignk hneps,
              lookupk_assignk hneps]
            cases hl : lookupk ps k with
            | some w => rfl
            | none => rw [lookupk_setk, if_neg hkpg, lookupk_assignk hneps, hl]

theorem mergeData_idem (v : ResultsView) (p : SearchAddDataActionData)
    (hG : Sortedk v.data.games) (hP : Sortedk v.data.pages)
    (hps : ∀ ps, p.pages = some ps → Sortedk ps) :
    mergeData (mergeData v p) p = mergeData v p := by
  rw [mergeData_eq v p, mergeData_eq]
  simp only [gamesF_idem p hG, totalF_idem, keysetF_idem, metaF_idem, scrollF_idem,
    pagesF_idem p hP hps]

theorem addDataView_drop {v : ResultsView} {p : SearchAddDataActionData}
    (h : p.searchId < v.data.searchId) : addDataView v p = v := by
  unfold addDataView
  rw [if_pos h]

theorem addDataView_supersede {v : ResultsView} {p : SearchAddDataActionData}
    (h : v.data.searchId < p.searchId) :
    addDataView v p = mergeData { v with data := resetData p.searchId } p := by
  unfold addDataView
  simp only [gt_iff_lt]
  rw [if_neg (lt_asymm h), if_pos h]

/-- Claim C4: `applyResponse` (`addData`) is idempotent — applying the same
payload twice in a row yields the very same view state as applying it once
(for any canonically represented view state and payload, i.e. ascending-key
record/page stores, as every JS object is). -/
theorem addData_idempotent (v : ResultsView) (p : SearchAddDataActionData)
    (hG : Sortedk v.data.games) (hP : Sortedk v.data.pages)
    (hps : ∀ ps, p.pages = some ps → Sortedk ps) :
    addDataView (addDataView v p) p = addDataView v p := by
  by_cases h1 : p.searchId < v.data.searchId
  · rw [addDataView_drop h1, addDataView_drop h1]
  · by_cases h2 : v.data.searchId < p.searchId
    · rw [addDataView_supersede h2]
      have hsid : (mergeData { v with data := resetData p.searchId } p).data.searchId
          = p.searchId := by
        rw [searchId_mergeData]
        rfl
      rw [addDataView_eq_merge_of_eq hsid]
      exact mergeData_idem _ p sortedk_nil sortedk_nil hps
    · have heq : v.data.searchId = p.searchId := by omega
      rw [addDataView_eq_merge_of_eq heq]
      have hsid : (mergeData v p).data.searchId = p.searchId := by
        rw [searchId_mergeData]
        exact heq
      rw [addDataView_eq_merge_of_eq hsid]
      exact mergeData_idem v p hG hP hps

theorem addData_idempotent_witness :
    addDataView (addDataView rangeView witnessPayload) witnessPayload
      = addDataView rangeView witnessPayload :=
  addData_idempotent rangeView witnessPayload (by decide) (by decide)
    (by intro ps h; exact Option.noConfusion h)

end Launcher
